import Mathlib

/-!
Verification development for the QuickShop ETL pipeline
(quickshop_etl: readers.py, validation.py, transforms.py, writers.py, cli.py).

The pandas data model is embedded shallowly:
* a cell value (`Val`) is a string, an exact rational number, a datetime
  (calendar date), or null (pandas NaN/NaT/None);
* a row is an association list from column names to values — a per-row
  key that is missing reads as null, matching the NaN fill applied by
  `pd.concat` on column mismatch;
* a table (`Table`) is a column-name list (the frame's `columns`
  metadata) plus a list of rows.

IEEE-754 floats are abstracted as exact rationals, and decimal rounding
(`Series.round(2)`) as exact rational rounding.  Date parsing done by
`pd.to_datetime` (strict-format and format-inferring) is kept abstract:
the functions that parse take the two cell-level parsers as arguments,
and concrete sample parsers are provided for evaluation.  Filesystem
effects on the writer path are reified as a list of `WriteOp` values.
-/

namespace QuickShop

/-- A calendar date as produced by a successful `pd.to_datetime` parse. -/
structure Date where
  year : Nat
  month : Nat
  day : Nat
deriving DecidableEq, Repr

/-- A cell value of a DataFrame. `null` stands for NaN/NaT/None. -/
inductive Val where
  | str : String → Val
  | num : Rat → Val
  | date : Date → Val
  | null : Val
deriving DecidableEq, Repr

instance : BEq Val := ⟨fun a b => decide (a = b)⟩

/-- A row: association list from column name to value. -/
def Row := List (String × Val)

instance : DecidableEq Row := by unfold Row; infer_instance

/-- A DataFrame: column metadata plus rows. -/
structure Table where
  cols : List String
  rows : List Row
deriving DecidableEq

/-- Read a cell; a key missing from the row reads as null (NaN). -/
def getVal : Row → String → Val
  | [], _ => .null
  | (k, w) :: rest, c => if k = c then w else getVal rest c

/-- Write a cell: replace the first binding of the key in place, or
append the key at the end (a new DataFrame column assignment). -/
def setVal : Row → String → Val → Row
  | [], c, v => [(c, v)]
  | (k, w) :: rest, c, v => if k = c then (c, v) :: rest else (k, w) :: setVal rest c v

/-- Digits of a numeric literal, most significant first. -/
def digitsToNat (cs : List Char) : Option Nat :=
  cs.foldl
    (fun acc c =>
      match acc with
      | none => none
      | some n => if c.isDigit then some (n * 10 + (c.toNat - 48)) else none)
    (some 0)

/-- Model of `pd.to_numeric(_, errors="coerce")` on a string cell:
optional surrounding spaces, optional sign, decimal digits with at most
one decimal point.  Anything else coerces to NaN (`none`). -/
def parseNumStr (s : String) : Option Rat :=
  let cs0 := s.data.dropWhile (fun c => decide (c = ' '))
  let cs := (cs0.reverse.dropWhile (fun c => decide (c = ' '))).reverse
  let sgnCs : Rat × List Char :=
    match cs with
    | '-' :: rest => (-1, rest)
    | '+' :: rest => (1, rest)
    | _ => (1, cs)
  let sgn := sgnCs.1
  let body := sgnCs.2
  let intPart := body.takeWhile (fun c => decide (c ≠ '.'))
  let rest := body.dropWhile (fun c => decide (c ≠ '.'))
  match rest with
  | [] =>
    if intPart.isEmpty then none
    else (digitsToNat intPart).map (fun n => sgn * (n : Rat))
  | _ :: frac =>
    if frac.any (fun c => decide (c = '.')) then none
    else if intPart.isEmpty && frac.isEmpty then none
    else
      match digitsToNat intPart, digitsToNat frac with
      | some i, some f =>
        some (sgn * ((i : Rat) + (f : Rat) / ((10 : Rat) ^ frac.length)))
      | _, _ => none

/-- Model of `pd.to_numeric(_, errors="coerce")` on one cell. -/
def toNumOpt (v : Val) : Option Rat :=
  match v with
  | .num q => some q
  | .str s => parseNumStr s
  | .date _ => none
  | .null => none

/-- `astype(int)` on a finite float value: truncation toward zero. -/
def ratTrunc (q : Rat) : Int := q.num / (q.den : Int)

/-- Round to the nearest integer, halves away from zero resolved upward
(the exact-rational abstraction of float rounding). -/
def roundHalfUp (q : Rat) : Int := Int.fdiv (2 * q.num + (q.den : Int)) (2 * (q.den : Int))

/-- `round(2)`: round to 2 decimal places. -/
def round2 (q : Rat) : Rat := ((roundHalfUp (q * 100) : Int) : Rat) / 100

/-- Zero-pad to two digits (`%m`, `%d`). -/
def pad2 (n : Nat) : String := if n < 10 then "0" ++ toString n else toString n

/-- Zero-pad to four digits (`%Y`). -/
def pad4 (n : Nat) : String :=
  if n < 10 then "000" ++ toString n
  else if n < 100 then "00" ++ toString n
  else if n < 1000 then "0" ++ toString n
  else toString n

/-- `strftime("%Y-%m-%d")`. -/
def isoFormat (d : Date) : String := pad4 d.year ++ "-" ++ pad2 d.month ++ "-" ++ pad2 d.day

/-- String interpolation of a cell value (an f-string on the raw cell);
null interpolates as the float NaN does. -/
def valToStr (v : Val) : String :=
  match v with
  | .str s => s
  | .num q => toString q
  | .date d => isoFormat d
  | .null => "nan"

/-! ### transforms.py -/

/-- One row under a column rename. -/
def renameRowFn (pred : String → Bool) (tgt : String) (r : Row) : Row :=
  r.map (fun kv => (if pred kv.1 then tgt else kv.1, kv.2))

/-- The column-rename loop of `add_order_total`: every column whose name
satisfies `pred` is renamed to `tgt`, in the column metadata and in
every row. -/
def renameTable (pred : String → Bool) (tgt : String) (t : Table) : Table :=
  ⟨t.cols.map (fun c => if pred c then tgt else c),
   t.rows.map (renameRowFn pred tgt)⟩

/-- One character of `c.lower() == target` for an already-lowercase
target character: equal outright, or an ASCII uppercase letter whose
lowercase form is the target. -/
def asciiLowerEqCh (a b : Char) : Bool :=
  a == b || (65 ≤ a.toNat && a.toNat ≤ 90 && a.toNat + 32 == b.toNat)

/-- `xs.lower() == ys` for an already-lowercase `ys`. -/
def asciiLowerEq : List Char → List Char → Bool
  | [], [] => true
  | a :: as, b :: bs => asciiLowerEqCh a b && asciiLowerEq as bs
  | _, _ => false

/-- `c.lower() == target` for an already-lowercase ASCII `target`. -/
def lowerIs (c target : String) : Bool := asciiLowerEq c.data target.data

/-- `c.lower() == "qty"`. -/
def qtyAlias (c : String) : Bool := lowerIs c "qty"

/-- `c.lower() in ("unitprice", "unit_price", "price")`. -/
def priceAlias (c : String) : Bool :=
  lowerIs c "unitprice" || lowerIs c "unit_price" || lowerIs c "price"

/-- The normalization prologue of `add_order_total` (transforms.py
lines 14-21): rename casing/alias variants of `qty` and `unit_price`
unless the canonical name is already present. -/
def normalizeQtyPrice (t : Table) : Table :=
  let t1 := if "qty" ∈ t.cols then t else renameTable qtyAlias "qty" t
  if "unit_price" ∈ t1.cols then t1 else renameTable priceAlias "unit_price" t1

/-- Coerced `qty` of a row:
`pd.to_numeric(..., errors="coerce").fillna(0).astype(int)`. -/
def coerceQtyInt (r : Row) : Int := ratTrunc ((toNumOpt (getVal r "qty")).getD 0)

/-- Coerced `unit_price` of a row:
`pd.to_numeric(..., errors="coerce").fillna(0.0).astype(float)`. -/
def coercePriceRat (r : Row) : Rat := (toNumOpt (getVal r "unit_price")).getD 0

/-- Per-row body of `add_order_total`: store the coerced `qty` and
`unit_price` and the rounded product in `order_total`. -/
def orderTotalRow (r : Row) : Row :=
  let q := coerceQtyInt r
  let p := coercePriceRat r
  setVal (setVal (setVal r "qty" (.num (q : Rat))) "unit_price" (.num p))
    "order_total" (.num (round2 ((q : Rat) * p)))

/-- `add_order_total` (transforms.py lines 6-30).  When no `qty`
(respectively `unit_price`) column exists even after renaming,
`df.get` returns the scalar default and the subsequent `.fillna` call
raises `AttributeError`; that failure is the `.error` branch. -/
def add_order_total (t : Table) : Except String Table :=
  let t2 := normalizeQtyPrice t
  if "qty" ∉ t2.cols then .error "AttributeError: int object has no attribute fillna"
  else if "unit_price" ∉ t2.cols then .error "AttributeError: int object has no attribute fillna"
  else
    .ok ⟨(if "order_total" ∈ t2.cols then t2.cols else t2.cols ++ ["order_total"]),
         t2.rows.map orderTotalRow⟩

/-- Merge-key coercion `pd.to_numeric(_, errors="coerce")` of one cell:
parseable values become numeric, the rest NaN. -/
def numOrNull (v : Val) : Val :=
  match toNumOpt v with
  | some q => .num q
  | none => .null

/-- Coerce the `product_id` cell of one row. -/
def coerceIdRow (r : Row) : Row := setVal r "product_id" (numOrNull (getVal r "product_id"))

/-- The product row a left row with coerced key `k` merges with: first
right row whose coerced `product_id` equals `k`.  NaN keys join each
other — pandas `merge` places left and right NaN keys in one shared NA
group — so `k = null` matches a NaN-keyed product row. -/
def prodMatch (products : Table) (k : Val) : Option Row :=
  (products.rows.map coerceIdRow).find? (fun p => decide (getVal p "product_id" = k))

/-- `fillna` on one cell. -/
def fillVal (v : Val) (dflt : String) : Val :=
  match v with
  | .null => .str dflt
  | v => v

/-- The right-side columns the merge brings in whose names collide with
an existing orders column: pandas suffixes these with `_x` (left) and
`_y` (right). -/
def suffixOverlap (ordersCols : List String) : List String :=
  ["product_name", "category", "product_price"].filter (fun c => decide (c ∈ ordersCols))

/-- Rename a left row's colliding keys with the `_x` merge suffix. -/
def renameLeftRow (overlap : List String) (r : Row) : Row :=
  r.map (fun kv => (if kv.1 ∈ overlap then kv.1 ++ "_x" else kv.1, kv.2))

/-- The output name of a merged right-side column: `_y`-suffixed when
it collides with a left column, plain otherwise. -/
def rightColName (overlap : List String) (c : String) : String :=
  if c ∈ overlap then c ++ "_y" else c

/-- The merged frame's column list: left columns (colliding ones
`_x`-suffixed) followed by the three right columns (colliding ones
`_y`-suffixed). -/
def mergedColsOf (ordersCols : List String) : List String :=
  (ordersCols.map (fun c => if c ∈ suffixOverlap ordersCols then c ++ "_x" else c)) ++
    (["product_name", "category", "product_price"].map (rightColName (suffixOverlap ordersCols)))

/-- The merge step of `enrich_with_products` on one (key-coerced) left
row: suffix colliding left keys, then store the matched product's
`product_name`/`category`/`price` (the latter as `product_price`)
under the suffix-resolved right names, or NaN when unmatched. -/
def enrichJoin (ordersCols : List String) (products : Table) (r1 : Row) : Row :=
  match prodMatch products (getVal r1 "product_id") with
  | some p =>
    setVal (setVal (setVal (renameLeftRow (suffixOverlap ordersCols) r1)
      (rightColName (suffixOverlap ordersCols) "product_name") (getVal p "product_name"))
      (rightColName (suffixOverlap ordersCols) "category") (getVal p "category"))
      (rightColName (suffixOverlap ordersCols) "product_price") (getVal p "price")
  | none =>
    setVal (setVal (setVal (renameLeftRow (suffixOverlap ordersCols) r1)
      (rightColName (suffixOverlap ordersCols) "product_name") .null)
      (rightColName (suffixOverlap ordersCols) "category") .null)
      (rightColName (suffixOverlap ordersCols) "product_price") .null

/-- `if 'product_name' in enriched.columns: fillna("unknown_product")`. -/
def enrichFillName (mergedCols : List String) (r2 : Row) : Row :=
  if "product_name" ∈ mergedCols then
    setVal r2 "product_name" (fillVal (getVal r2 "product_name") "unknown_product")
  else r2

/-- `if 'category' in enriched.columns: fillna("unknown_category")`. -/
def enrichFillCategory (mergedCols : List String) (r3 : Row) : Row :=
  if "category" ∈ mergedCols then
    setVal r3 "category" (fillVal (getVal r3 "category") "unknown_category")
  else r3

/-- The guarded column-level `fillna` pair applied after the merge
(skipped for a column that was suffixed away by a collision). -/
def enrichFill (mergedCols : List String) (r2 : Row) : Row :=
  enrichFillCategory mergedCols (enrichFillName mergedCols r2)

/-- Per-row body of `enrich_with_products`: coerce the join key, merge,
then fill the sentinels. -/
def enrichRow (ordersCols : List String) (products : Table) (r : Row) : Row :=
  enrichFill (mergedColsOf ordersCols) (enrichJoin ordersCols products (coerceIdRow r))

/-- Whether a key list has a duplicate (NaN keys compare equal, as in
`pandas` merge validation). -/
def hasDupKeys : List Val → Bool
  | [] => false
  | x :: xs => xs.contains x || hasDupKeys xs

/-- `enrich_with_products` (transforms.py lines 32-60), with `how`
fixed to the default left join of the pipeline.  Missing join columns
raise `KeyError`; a duplicated right key violates `validate="m:1"` and
raises `MergeError`. -/
def enrich_with_products (orders products : Table) : Except String Table :=
  if "product_id" ∉ orders.cols then .error "KeyError: product_id"
  else if "product_id" ∉ products.cols ∨ "product_name" ∉ products.cols ∨
      "category" ∉ products.cols ∨ "price" ∉ products.cols then
    .error "KeyError: products columns"
  else if hasDupKeys ((products.rows.map coerceIdRow).map (fun p => getVal p "product_id")) then
    .error "MergeError: merge keys are not unique in right dataset; not a many-to-one merge"
  else
    .ok ⟨mergedColsOf orders.cols, orders.rows.map (enrichRow orders.cols products)⟩

/-- Per-row body of `add_order_date_iso`: keep an already-parsed
datetime cell, run the format-inferring parser (`flex`) on any other
cell, and format the result (`strftime` of NaT yields NaN). -/
def isoRow (flex : Val → Option Date) (dateCol outCol : String) (r : Row) : Row :=
  let dv : Option Date :=
    match getVal r dateCol with
    | .date d => some d
    | v => flex v
  let r1 := setVal r dateCol (match dv with | some d => .date d | none => .null)
  setVal r1 outCol (match dv with | some d => .str (isoFormat d) | none => .null)

/-- `add_order_date_iso` (transforms.py lines 62-73).  A missing date
column raises `KeyError`. -/
def add_order_date_iso (flex : Val → Option Date) (t : Table)
    (dateCol : String := "order_date") (outCol : String := "order_date_iso") :
    Except String Table :=
  if dateCol ∉ t.cols then .error ("KeyError: " ++ dateCol ++ " not found in dataframe for add_order_date_iso")
  else
    .ok ⟨(if outCol ∈ t.cols then t.cols else t.cols ++ [outCol]),
         t.rows.map (isoRow flex dateCol outCol)⟩

/-! ### readers.py: parse_date_column -/

/-- An optional parsed date as the stored cell value. -/
def optDateVal (o : Option Date) : Val :=
  match o with
  | some d => .date d
  | none => .null

/-- `parse_date_column` (readers.py lines 66-103), parameterized by the
two cell-level parsers: `strict` models `pd.to_datetime(_, format=fmt,
errors="coerce")` and `flex` models the format-inferring
`pd.to_datetime(_, errors="coerce")`; `fmtRepr` is the format text
interpolated into the strict failure message.  Rows whose strict parse
fails are retried with `flex`; recovered rows are appended to the good
table (and, as in the source, carry the transient `_parse_error` tag
given to them before the retry). -/
def parse_date_column (strict flex : Val → Option Date) (fmtRepr : String)
    (t : Table) (columnName : String) : Except String (Table × Table) :=
  if columnName ∉ t.cols then
    .error ("KeyError: Column " ++ columnName ++ " not in dataframe")
  else
    let strictGood := (t.rows.filter (fun r => (strict (getVal r columnName)).isSome)).map
      (fun r => setVal r columnName (optDateVal (strict (getVal r columnName))))
    let strictBad := t.rows.filter (fun r => (strict (getVal r columnName)).isNone)
    if strictBad.isEmpty then
      .ok (⟨t.cols, strictGood⟩, ⟨t.cols, []⟩)
    else
      let msg1 := "Failed to parse " ++ columnName ++ " with format=" ++ fmtRepr
      let taggedBad := strictBad.map (fun r => setVal r "_parse_error" (.str msg1))
      let fbGood := (taggedBad.filter (fun r => (flex (getVal r columnName)).isSome)).map
        (fun r => setVal r columnName (optDateVal (flex (getVal r columnName))))
      let finalBad := (taggedBad.filter (fun r => (flex (getVal r columnName)).isNone)).map
        (fun r => setVal r "_parse_error" (.str "Flexible parsing also failed"))
      .ok (⟨(if "_parse_error" ∈ t.cols then t.cols else t.cols ++ ["_parse_error"]),
            strictGood ++ fbGood⟩,
           ⟨(if "_parse_error" ∈ t.cols then t.cols else t.cols ++ ["_parse_error"]),
            finalBad⟩)

/-! ### validation.py -/

/-- `validate_dataframe` (validation.py lines 30-57), parameterized by
the schema engine: `check r` is `none` when `Schema.parse_obj(row)`
succeeds and `some msg` when it raises with message `msg`.  Good rows
are kept verbatim; each bad row gains an `_error` column. -/
def validate_dataframe (check : Row → Option String) (t : Table) : Table × Table :=
  (⟨t.cols, t.rows.filter (fun r => (check r).isNone)⟩,
   ⟨t.cols ++ ["_error"],
    (t.rows.filter (fun r => (check r).isSome)).map
      (fun r => setVal r "_error" (.str ((check r).getD "")))⟩)

/-! ### writers.py

Filesystem effects are reified: each writer returns its result value
together with the list of effects it performs.  The write-to-temporary
then rename-into-place discipline is abstracted into a single
file-creation effect at the final path (the temporary never survives),
and directory creation into a `mkdir` effect. -/

/-- A run summary dict as persisted by `write_summary_json`. -/
structure SummaryObj where
  date : Option String
  rows : Nat
  revenue : Rat
deriving DecidableEq, Repr

/-- A filesystem effect of the writer layer. -/
inductive WriteOp where
  | mkdir : String → WriteOp
  | parquetFile : String → Table → WriteOp
  | jsonFile : String → SummaryObj → WriteOp
  | csvFile : String → Table → WriteOp
deriving DecidableEq

/-- `write_parquet_partition` (writers.py lines 20-41): write the table
to `output_dir/date=<partition_value>/data.parquet` and return the
final path. -/
def write_parquet_partition (t : Table) (partitionValue : String) (outputDir : String) :
    String × List WriteOp :=
  let outdir := outputDir ++ "/date=" ++ partitionValue
  let finalFile := outdir ++ "/data.parquet"
  (finalFile, [.mkdir outdir, .parquetFile finalFile t])

/-- `write_summary_json` (writers.py lines 43-56): the filename derives
from the summary's `date` entry, defaulting to the token `run`. -/
def write_summary_json (s : SummaryObj) (outputDir : String) : String × List WriteOp :=
  let filename := "summary_" ++ s.date.getD "run" ++ ".json"
  let finalFile := outputDir ++ "/" ++ filename
  (finalFile, [.mkdir outputDir, .jsonFile finalFile s])

/-- `write_bad_rows_csv` (writers.py lines 58-71): create the output
directory, then no-op returning `none` on an empty table, otherwise
write `<output_dir>/<name>.csv`. -/
def write_bad_rows_csv (bad : Table) (name : String) (outputDir : String) :
    Option String × List WriteOp :=
  if bad.rows.isEmpty then (none, [.mkdir outputDir])
  else
    let target := outputDir ++ "/" ++ name ++ ".csv"
    (some target, [.mkdir outputDir, .csvFile target bad])

/-! ### cli.py: run_for_date -/

/-- The summary dict returned by `run_for_date`. -/
structure RunSummary where
  date : String
  rows : Nat
  revenue : Rat
  badRows : Nat
  parquetPath : Option String
deriving DecidableEq, Repr

/-- `pd.concat(_, ignore_index=True)` of two frames: rows are appended;
the column union keeps the first frame's order (cells missing from a
row read as NaN already, by `getVal`). -/
def concatTables (a b : Table) : Table :=
  ⟨a.cols ++ b.cols.filter (fun c => decide (c ∉ a.cols)), a.rows ++ b.rows⟩

/-- Column-wise sum with NaN skipped (`Series.sum()`): unparseable and
null cells contribute 0. -/
def sumNumCol (t : Table) (c : String) : Rat :=
  (t.rows.map (fun r => (toNumOpt (getVal r c)).getD 0)).sum

/-- The combined bad-rows frame of a run (cli.py lines 68-77): `none`
models the Python `None` when both parts are empty. -/
def combineBadRows (parsedBad validBad : Table) : Option Table :=
  if parsedBad.rows.isEmpty then
    if validBad.rows.isEmpty then none else some validBad
  else
    if validBad.rows.isEmpty then some parsedBad
    else some (concatTables parsedBad validBad)

/-- The bad-rows write of a run (cli.py lines 88-89 and 120-121),
guarded on a present, non-empty combined frame. -/
def badRowsWriteOps (badCombined : Option Table) (dateStr outBase : String) : List WriteOp :=
  match badCombined with
  | none => []
  | some bt =>
    if bt.rows.isEmpty then []
    else (write_bad_rows_csv bt ("orders-" ++ dateStr ++ "-bad") (outBase ++ "/bad_rows")).2

/-- `run_for_date` (cli.py lines 32-133), for a date whose order file
exists and has been loaded as `ordersRaw` (file discovery and CSV
loading are the reader's input boundary; a missing file is a fatal
`FileNotFoundError` before this function's body runs).  `products` is
the frame returned by `read_products`, whose bad-rows component is
always empty, so the products-bad write never fires.  `strict`/`flex`
are the two date parsers of the reader, `check` the order-schema
engine.  Returns the summary dict and the filesystem effects. -/
def run_for_date (strict flex : Val → Option Date) (check : Row → Option String)
    (ordersRaw products : Table) (dateStr outBase : String) (dryRun : Bool) :
    Except String (RunSummary × List WriteOp) :=
  match parse_date_column strict flex "%Y-%m-%d" ordersRaw "order_date" with
  | .error e => .error e
  | .ok (parsedGood, parsedBad) =>
    let vres := validate_dataframe check parsedGood
    let valid := vres.1
    let validBad := vres.2
    let badCombined := combineBadRows parsedBad validBad
    let badCount := match badCombined with | none => 0 | some bt => bt.rows.length
    if valid.rows.isEmpty then
      .ok (⟨dateStr, 0, 0, badCount, none⟩,
           if dryRun then [] else badRowsWriteOps badCombined dateStr outBase)
    else
      match add_order_total valid with
      | .error e => .error e
      | .ok e1 =>
        match enrich_with_products e1 products with
        | .error e => .error e
        | .ok e2 =>
          match add_order_date_iso flex e2 "order_date" "order_date_iso" with
          | .error e => .error e
          | .ok e3 =>
            let totalRevenue := if "order_total" ∈ e3.cols then round2 (sumNumCol e3 "order_total") else 0
            let rowsProcessed := e3.rows.length
            if dryRun then
              .ok (⟨dateStr, rowsProcessed, totalRevenue, badCount, none⟩, [])
            else
              match e3.rows with
              | [] => .error "IndexError: single positional indexer is out-of-bounds"
              | r :: _ =>
                let partitionValue := valToStr (getVal r "order_date_iso")
                let pres := write_parquet_partition e3 partitionValue (outBase ++ "/processed")
                let sObj : SummaryObj := ⟨some partitionValue, rowsProcessed, totalRevenue⟩
                let jres := write_summary_json sObj (outBase ++ "/summaries")
                .ok (⟨dateStr, rowsProcessed, totalRevenue, badCount, some pres.1⟩,
                     pres.2 ++ jres.2 ++ badRowsWriteOps badCombined dateStr outBase)

/-- The summary-JSON writes among a run's effects. -/
def jsonWrites (ops : List WriteOp) : List (String × SummaryObj) :=
  ops.filterMap (fun op => match op with | .jsonFile p so => some (p, so) | _ => none)

/-- The bad-rows CSV writes among a run's effects. -/
def csvWrites (ops : List WriteOp) : List (String × Table) :=
  ops.filterMap (fun op => match op with | .csvFile p bt => some (p, bt) | _ => none)

/-! ### Concrete sample parsers and schema checks (for evaluation) -/

/-- A strict `%Y-%m-%d` cell parser: exactly `YYYY-MM-DD`. -/
def strictIsoParse (v : Val) : Option Date :=
  match v with
  | .date d => some d
  | .str s =>
    match s.data with
    | [y1, y2, y3, y4, '-', m1, m2, '-', d1, d2] =>
      if (y1.isDigit && y2.isDigit && y3.isDigit && y4.isDigit &&
          m1.isDigit && m2.isDigit && d1.isDigit && d2.isDigit) then
        some ⟨((y1.toNat - 48) * 1000 + (y2.toNat - 48) * 100 + (y3.toNat - 48) * 10 + (y4.toNat - 48)),
              ((m1.toNat - 48) * 10 + (m2.toNat - 48)),
              ((d1.toNat - 48) * 10 + (d2.toNat - 48))⟩
      else none
    | _ => none
  | _ => none

/-- A format-inferring cell parser: accepts `YYYY-MM-DD` and also
`YYYY/MM/DD` (one shape the strict format rejects). -/
def flexDateParse (v : Val) : Option Date :=
  match v with
  | .date d => some d
  | .str s =>
    match strictIsoParse (.str s) with
    | some d => some d
    | none =>
      match s.data with
      | [y1, y2, y3, y4, '/', m1, m2, '/', d1, d2] =>
        if (y1.isDigit && y2.isDigit && y3.isDigit && y4.isDigit &&
            m1.isDigit && m2.isDigit && d1.isDigit && d2.isDigit) then
          some ⟨((y1.toNat - 48) * 1000 + (y2.toNat - 48) * 100 + (y3.toNat - 48) * 10 + (y4.toNat - 48)),
                ((m1.toNat - 48) * 10 + (m2.toNat - 48)),
                ((d1.toNat - 48) * 10 + (d2.toNat - 48))⟩
        else none
      | _ => none
  | _ => none

/-- A sample order-schema engine: requires a parsed `order_date`, an
integral non-negative `qty` and a non-negative `unit_price`. -/
def sampleOrderCheck (r : Row) : Option String :=
  match getVal r "order_date" with
  | .date _ =>
    match getVal r "qty", getVal r "unit_price" with
    | .num q, .num p =>
      if q < 0 then some "qty: ensure this value is greater than or equal to 0"
      else if p < 0 then some "unit_price: ensure this value is greater than or equal to 0"
      else none
    | _, _ => some "value is not a valid number"
  | _ => some "order_date: invalid datetime format"

/-! ### transforms.py: aggregation helpers -/

/-- First-occurrence deduplication: the distinct group keys of a
`groupby`, in order of first appearance (group ordering is abstracted
to first-appearance order). -/
def dedupFirst {α : Type} [BEq α] (l : List α) : List α :=
  l.foldl (fun acc x => if acc.contains x then acc else acc ++ [x]) []

/-- The `groupby(["order_date_iso", "category"], dropna=False).agg`
step of `compute_daily_category_revenue` (transforms.py lines 86-90):
`groupby` raises `KeyError` when a group-key column is absent and
`.agg` when an aggregated source column is absent; otherwise one
output row per distinct key pair (null keys kept by `dropna=False`),
summing `order_total` (then rounding to 2 decimals) and `qty` over the
group, NaN summing as 0. -/
def dailyAgg (t : Table) : Except String Table :=
  if "order_date_iso" ∉ t.cols ∨ "category" ∉ t.cols then
    .error "KeyError: groupby column not in dataframe"
  else if "order_total" ∉ t.cols ∨ "qty" ∉ t.cols then
    .error "KeyError: agg column not in dataframe"
  else
    let keys := dedupFirst (t.rows.map (fun r => (getVal r "order_date_iso", getVal r "category")))
    .ok ⟨["order_date_iso", "category", "total_revenue", "total_units"],
      keys.map (fun k =>
        let grp := t.rows.filter
          (fun r => decide ((getVal r "order_date_iso", getVal r "category") = k))
        [("order_date_iso", k.1), ("category", k.2),
         ("total_revenue", .num (round2 ((grp.map
           (fun r => (toNumOpt (getVal r "order_total")).getD 0)).sum))),
         ("total_units", .num ((grp.map (fun r => (toNumOpt (getVal r "qty")).getD 0)).sum))])⟩

/-- `compute_daily_category_revenue` (transforms.py lines 75-91):
derive `order_total` and `order_date_iso` only when absent, then
aggregate. -/
def compute_daily_category_revenue (flex : Val → Option Date) (t : Table) :
    Except String Table :=
  match (if "order_total" ∈ t.cols then .ok t else add_order_total t : Except String Table) with
  | .error e => .error e
  | .ok t1 =>
    match (if "order_date_iso" ∈ t1.cols then .ok t1
           else add_order_date_iso flex t1 "order_date" "order_date_iso" : Except String Table) with
    | .error e => .error e
    | .ok t2 => dailyAgg t2

/-- One aggregated product group: key triple, revenue sum, unit sum. -/
def ProdGroup := (Val × Val × Val) × Rat × Rat

/-- Stable descending insertion by revenue (`sort_values("total_revenue",
ascending=False)`; tie order abstracted to stable). -/
def insertByRevDesc (x : ProdGroup) : List ProdGroup → List ProdGroup
  | [] => [x]
  | y :: ys => if x.2.1 ≥ y.2.1 then x :: y :: ys else y :: insertByRevDesc x ys

/-- Sort product groups by descending revenue. -/
def sortByRevDesc (l : List ProdGroup) : List ProdGroup :=
  l.foldr insertByRevDesc []

/-- The `groupby(["product_id", "product_name", "category"],
dropna=False).agg` + `sort_values` + `head(n)` + `round(2)` tail of
`top_n_products_by_revenue` (transforms.py lines 101-106): `groupby`
raises `KeyError` when a group-key column is absent and `.agg` when an
aggregated source column is absent; rounding happens after the cut, on
each surviving row. -/
def topAgg (t : Table) (n : Nat) : Except String Table :=
  if "product_id" ∉ t.cols ∨ "product_name" ∉ t.cols ∨ "category" ∉ t.cols then
    .error "KeyError: groupby column not in dataframe"
  else if "order_total" ∉ t.cols ∨ "qty" ∉ t.cols then
    .error "KeyError: agg column not in dataframe"
  else
    let keys := dedupFirst (t.rows.map
      (fun r => (getVal r "product_id", getVal r "product_name", getVal r "category")))
    let groups : List ProdGroup := keys.map (fun k =>
      let grp := t.rows.filter (fun r =>
        decide ((getVal r "product_id", getVal r "product_name", getVal r "category") = k))
      (k, (grp.map (fun r => (toNumOpt (getVal r "order_total")).getD 0)).sum,
          (grp.map (fun r => (toNumOpt (getVal r "qty")).getD 0)).sum))
    let top := (sortByRevDesc groups).take n
    .ok ⟨["product_id", "product_name", "category", "total_revenue", "total_units"],
      top.map (fun g =>
        [("product_id", g.1.1), ("product_name", g.1.2.1), ("category", g.1.2.2),
         ("total_revenue", .num (round2 g.2.1)), ("total_units", .num g.2.2)])⟩

/-- `top_n_products_by_revenue` (transforms.py lines 93-107): derive
`order_total` only when absent, then aggregate, sort and cut. -/
def top_n_products_by_revenue (t : Table) (n : Nat) : Except String Table :=
  match (if "order_total" ∈ t.cols then .ok t else add_order_total t : Except String Table) with
  | .error e => .error e
  | .ok t1 => topAgg t1 n

/-! ### Concrete witness inputs -/

/-- Witness input for C1: a two-row table whose columns use the `Qty`
casing alias, one row numeric-parseable, one not. -/
def c1Tbl : Table :=
  ⟨["Qty", "unit_price"],
   [[("Qty", .str "2"), ("unit_price", .str "10.0")],
    [("Qty", .str "oops"), ("unit_price", .null)]]⟩

/-- Witness input for C2/C9: one strict parse, one fallback recovery,
one double failure; the sample validator rejects the middle row. -/
def c2Tbl : Table :=
  ⟨["order_id", "order_date", "product_id", "qty", "unit_price"],
   [[("order_id", .num 1), ("order_date", .str "2025-10-25"), ("product_id", .num 1001),
     ("qty", .num 2), ("unit_price", .num 10)],
    [("order_id", .num 2), ("order_date", .str "2025/10/26"), ("product_id", .num 1001),
     ("qty", .num (-1)), ("unit_price", .num 1)],
    [("order_id", .num 3), ("order_date", .str "garbage"), ("product_id", .num 1002),
     ("qty", .num 1), ("unit_price", .num 1)]]⟩

/-- The good table `parse_date_column` returns on `c2Tbl`. -/
def c2Good : Table :=
  match parse_date_column strictIsoParse flexDateParse "%Y-%m-%d" c2Tbl "order_date" with
  | .ok p => p.1
  | .error _ => ⟨[], []⟩

/-- The bad table `parse_date_column` returns on `c2Tbl`. -/
def c2Bad : Table :=
  match parse_date_column strictIsoParse flexDateParse "%Y-%m-%d" c2Tbl "order_date" with
  | .ok p => p.2
  | .error _ => ⟨[], []⟩

/-- Witness inputs for C4: the first order row matches product 1001,
the second has no match. -/
def c4Orders : Table :=
  ⟨["order_id", "product_id", "qty"],
   [[("order_id", .num 1), ("product_id", .num 1001), ("qty", .num 2)],
    [("order_id", .num 2), ("product_id", .num 9999), ("qty", .num 1)]]⟩

/-- Witness product table for C4. -/
def c4Products : Table :=
  ⟨["product_id", "product_name", "category", "price"],
   [[("product_id", .num 1001), ("product_name", .str "Classic Tee"),
     ("category", .str "Apparel"), ("price", .num (1999/100))]]⟩

/-- The enriched table `enrich_with_products` returns on the C4 inputs. -/
def c4Out : Table :=
  match enrich_with_products c4Orders c4Products with
  | .ok t => t
  | .error _ => ⟨[], []⟩

/-- Witness input for C8: an already-enriched table carrying
`order_total` and `order_date_iso` (plus the grouping columns). -/
def c8Tbl : Table :=
  ⟨["order_id", "product_id", "product_name", "category", "qty", "unit_price",
    "order_total", "order_date_iso"],
   [[("order_id", .num 1), ("product_id", .num 1001), ("product_name", .str "Classic Tee"),
     ("category", .str "Apparel"), ("qty", .num 2), ("unit_price", .num 10),
     ("order_total", .num 20), ("order_date_iso", .str "2025-10-25")],
    [("order_id", .num 2), ("product_id", .num 1002), ("product_name", .str "Mug"),
     ("category", .str "Home"), ("qty", .num 1), ("unit_price", .num 5),
     ("order_total", .num 5), ("order_date_iso", .str "2025-10-25")]]⟩

/-- A schema engine that rejects every row (for the C5 witness). -/
def rejectAllCheck (_r : Row) : Option String := some "validation error"

/-- The result of a concrete successful non-dry run (for the C10
witness): one valid order row, one validation reject, one parse
failure. -/
def c10Res : RunSummary × List WriteOp :=
  match run_for_date strictIsoParse flexDateParse sampleOrderCheck c2Tbl c4Products
      "20251025" "output" false with
  | .ok p => p
  | .error _ => (⟨"", 0, 0, 0, none⟩, [])

/-! ### Helper lemmas -/

theorem getVal_setVal_self (r : Row) (c : String) (v : Val) :
    getVal (setVal r c v) c = v := by
  induction r with
  | nil => simp [setVal, getVal]
  | cons kv rest ih =>
    obtain ⟨k, w⟩ := kv
    by_cases h : k = c
    · simp [setVal, getVal, h]
    · simp [setVal, getVal, h, ih]

theorem getVal_setVal_ne (r : Row) (c c' : String) (v : Val) (h : c' ≠ c) :
    getVal (setVal r c v) c' = getVal r c' := by
  induction r with
  | nil => simp [setVal, getVal, Ne.symm h]
  | cons kv rest ih =>
    obtain ⟨k, w⟩ := kv
    by_cases hk : k = c
    · subst hk
      simp [setVal, getVal, Ne.symm h]
    · simp [setVal, getVal, hk, ih]

theorem length_filter_partition {α : Type} (p : α → Bool) (l : List α) :
    (l.filter p).length + (l.filter (fun x => !(p x))).length = l.length := by
  induction l with
  | nil => simp
  | cons x xs ih =>
    by_cases h : p x = true
    · simp [List.filter_cons, h]
      omega
    · simp only [Bool.not_eq_true] at h
      simp [List.filter_cons, h]
      omega

theorem getD_map_of_lt {α β : Type} (f : α → β) (l : List α) (i : Nat)
    (h : i < l.length) (d : α) (d' : β) : (l.map f).getD i d' = f (l.getD i d) := by
  induction l generalizing i with
  | nil => simp at h
  | cons x xs ih =>
    cases i with
    | zero => simp [List.getD]
    | succ n =>
      simp only [List.length_cons] at h
      simp only [List.map_cons, List.getD_cons_succ]
      exact ih n (by omega)

theorem renameTable_rows_length (pred : String → Bool) (tgt : String) (t : Table) :
    (renameTable pred tgt t).rows.length = t.rows.length := by
  simp [renameTable]

theorem normalizeQtyPrice_rows_length (t : Table) :
    (normalizeQtyPrice t).rows.length = t.rows.length := by
  unfold normalizeQtyPrice
  by_cases h1 : "qty" ∈ t.cols <;> by_cases h2 : "unit_price" ∈ t.cols <;>
    simp [h1, h2, renameTable_rows_length] <;>
    split <;> simp [renameTable_rows_length]

theorem length_filter_opt {α β : Type} (f : α → Option β) (l : List α) :
    (l.filter (fun x => (f x).isSome)).length + (l.filter (fun x => (f x).isNone)).length
      = l.length := by
  induction l with
  | nil => simp
  | cons x xs ih =>
    cases h : f x <;> simp [List.filter_cons, h] <;> omega

/-- **C2**: For every input table with the designated column present
(the `.ok` hypothesis), `parse_date_column` partitions its input, and
`validate_dataframe` partitions any input: the good table holds
exactly the (date-updated) rows that parse — strict successes then
fallback recoveries — and the bad table exactly the (error-tagged)
rows that fail both parses; the valid table holds exactly the rows the
schema accepts, unchanged, and the invalid table exactly the rejected
rows plus their `_error` tag.  In both cases every input row lands in
exactly one of the two outputs and `len(good) + len(bad) =
len(input)`. -/
theorem C2_parse_validate_partition (strict flex : Val → Option Date) (fmtRepr : String)
    (check : Row → Option String) (t u : Table) (col : String) (good bad : Table)
    (hok : parse_date_column strict flex fmtRepr t col = .ok (good, bad)) :
    (good.rows.length + bad.rows.length = t.rows.length ∧
     good.rows =
       ((t.rows.filter (fun r => (strict (getVal r col)).isSome)).map
         (fun r => setVal r col (optDateVal (strict (getVal r col))))) ++
       ((((t.rows.filter (fun r => (strict (getVal r col)).isNone)).map
           (fun r => setVal r "_parse_error"
             (.str ("Failed to parse " ++ col ++ " with format=" ++ fmtRepr)))).filter
         (fun r => (flex (getVal r col)).isSome)).map
         (fun r => setVal r col (optDateVal (flex (getVal r col))))) ∧
     bad.rows =
       (((t.rows.filter (fun r => (strict (getVal r col)).isNone)).map
           (fun r => setVal r "_parse_error"
             (.str ("Failed to parse " ++ col ++ " with format=" ++ fmtRepr)))).filter
         (fun r => (flex (getVal r col)).isNone)).map
         (fun r => setVal r "_parse_error" (.str "Flexible parsing also failed"))) ∧
    ((validate_dataframe check u).1.rows.length + (validate_dataframe check u).2.rows.length
       = u.rows.length ∧
     (validate_dataframe check u).1.rows = u.rows.filter (fun r => (check r).isNone) ∧
     (validate_dataframe check u).2.rows =
       (u.rows.filter (fun r => (check r).isSome)).map
         (fun r => setVal r "_error" (.str ((check r).getD "")))) := by
  constructor
  · unfold parse_date_column at hok
    by_cases hcol : col ∈ t.cols
    · simp only [hcol, not_true_eq_false, if_false] at hok
      by_cases hbad : (t.rows.filter (fun r => (strict (getVal r col)).isNone)).isEmpty
      · rw [if_pos hbad] at hok
        simp only [Except.ok.injEq, Prod.mk.injEq] at hok
        obtain ⟨hg, hb⟩ := hok
        subst hg; subst hb
        rw [List.isEmpty_iff] at hbad
        refine ⟨?_, ?_, ?_⟩
        · have h1 := length_filter_opt (fun r => strict (getVal r col)) t.rows
          rw [hbad] at h1
          simpa using h1
        · simp [hbad]
        · simp [hbad]
      · rw [if_neg hbad] at hok
        simp only [Except.ok.injEq, Prod.mk.injEq] at hok
        obtain ⟨hg, hb⟩ := hok
        subst hg; subst hb
        refine ⟨?_, rfl, rfl⟩
        simp only [List.length_append, List.length_map]
        rw [Nat.add_assoc]
        have h2 := length_filter_opt
          (fun r => flex (getVal r col))
          ((t.rows.filter (fun r => (strict (getVal r col)).isNone)).map
            (fun r => setVal r "_parse_error"
              (.str ("Failed to parse " ++ col ++ " with format=" ++ fmtRepr))))
        rw [List.length_map] at h2
        rw [h2]
        exact length_filter_opt (fun r => strict (getVal r col)) t.rows
    · simp [hcol] at hok
  · refine ⟨?_, rfl, rfl⟩
    show (u.rows.filter (fun r => (check r).isNone)).length +
      ((u.rows.filter (fun r => (check r).isSome)).map
        (fun r => setVal r "_error" (.str ((check r).getD "")))).length = u.rows.length
    rw [List.length_map, Nat.add_comm]
    exact length_filter_opt check u.rows

theorem C2_witness :
    (c2Good.rows.length + c2Bad.rows.length = c2Tbl.rows.length ∧
     c2Good.rows =
       ((c2Tbl.rows.filter (fun r => (strictIsoParse (getVal r "order_date")).isSome)).map
         (fun r => setVal r "order_date" (optDateVal (strictIsoParse (getVal r "order_date"))))) ++
       ((((c2Tbl.rows.filter (fun r => (strictIsoParse (getVal r "order_date")).isNone)).map
           (fun r => setVal r "_parse_error"
             (.str ("Failed to parse " ++ "order_date" ++ " with format=" ++ "%Y-%m-%d")))).filter
         (fun r => (flexDateParse (getVal r "order_date")).isSome)).map
         (fun r => setVal r "order_date" (optDateVal (flexDateParse (getVal r "order_date"))))) ∧
     c2Bad.rows =
       (((c2Tbl.rows.filter (fun r => (strictIsoParse (getVal r "order_date")).isNone)).map
           (fun r => setVal r "_parse_error"
             (.str ("Failed to parse " ++ "order_date" ++ " with format=" ++ "%Y-%m-%d")))).filter
         (fun r => (flexDateParse (getVal r "order_date")).isNone)).map
         (fun r => setVal r "_parse_error" (.str "Flexible parsing also failed"))) ∧
    ((validate_dataframe sampleOrderCheck c2Good).1.rows.length +
       (validate_dataframe sampleOrderCheck c2Good).2.rows.length = c2Good.rows.length ∧
     (validate_dataframe sampleOrderCheck c2Good).1.rows =
       c2Good.rows.filter (fun r => (sampleOrderCheck r).isNone) ∧
     (validate_dataframe sampleOrderCheck c2Good).2.rows =
       (c2Good.rows.filter (fun r => (sampleOrderCheck r).isSome)).map
         (fun r => setVal r "_error" (.str ((sampleOrderCheck r).getD "")))) :=
  C2_parse_validate_partition strictIsoParse flexDateParse "%Y-%m-%d" sampleOrderCheck
    c2Tbl c2Good "order_date" c2Good c2Bad (by rfl)

/-! ### Claim C6 -/

/-- **C6**: For every table in which the designated date column is
absent, `parse_date_column` aborts with a `KeyError` — no good/bad
split is produced, nothing is quarantined — and likewise
`add_order_date_iso` raises a `KeyError` when its date column is
absent from the input. -/
theorem C6_missing_column_is_fatal (strict flex : Val → Option Date) (fmtRepr : String)
    (t : Table) (col outCol : String) (h : col ∉ t.cols) :
    parse_date_column strict flex fmtRepr t col =
      .error ("KeyError: Column " ++ col ++ " not in dataframe") ∧
    add_order_date_iso flex t col outCol =
      .error ("KeyError: " ++ col ++ " not found in dataframe for add_order_date_iso") := by
  constructor
  · unfold parse_date_column
    rw [if_pos h]
  · unfold add_order_date_iso
    rw [if_pos h]

theorem C6_witness :
    parse_date_column strictIsoParse flexDateParse "%Y-%m-%d" c1Tbl "order_date" =
      .error ("KeyError: Column " ++ "order_date" ++ " not in dataframe") ∧
    add_order_date_iso flexDateParse c1Tbl "order_date" "order_date_iso" =
      .error ("KeyError: " ++ "order_date" ++ " not found in dataframe for add_order_date_iso") :=
  C6_missing_column_is_fatal strictIsoParse flexDateParse "%Y-%m-%d" c1Tbl
    "order_date" "order_date_iso" (by decide)

/-! ### Claim C7 -/

/-- **C7**: For every empty bad-rows table, `write_bad_rows_csv` is a
no-op that returns the absent-path marker `none` and creates no file:
its only filesystem effect is the directory creation that precedes the
empty check, so in particular no file appears at the target path. -/
theorem C7_empty_bad_rows_noop (bad : Table) (name outputDir : String)
    (h : bad.rows = []) :
    (write_bad_rows_csv bad name outputDir).1 = none ∧
    (write_bad_rows_csv bad name outputDir).2 = [.mkdir outputDir] := by
  unfold write_bad_rows_csv
  simp [h]

theorem C7_witness :
    (write_bad_rows_csv ⟨["order_id", "_error"], []⟩ "orders-20251025-bad" "output/bad_rows").1
      = none ∧
    (write_bad_rows_csv ⟨["order_id", "_error"], []⟩ "orders-20251025-bad" "output/bad_rows").2
      = [.mkdir "output/bad_rows"] :=
  C7_empty_bad_rows_noop ⟨["order_id", "_error"], []⟩ "orders-20251025-bad" "output/bad_rows" rfl

/-! ### Claim C9 -/

theorem filter_map_comm {α β : Type} (f : α → β) (p : β → Bool) (l : List α) :
    (l.map f).filter p = (l.filter (fun x => p (f x))).map f := by
  induction l with
  | nil => rfl
  | cons x xs ih =>
    by_cases h : p (f x) <;> simp [List.filter_cons, h, ih]

theorem filter_and_comm {α : Type} (p q : α → Bool) (l : List α) :
    (l.filter p).filter q = l.filter (fun x => p x && q x) := by
  induction l with
  | nil => rfl
  | cons x xs ih =>
    by_cases hp : p x <;> by_cases hq : q x <;> simp [List.filter_cons, hp, hq, ih]

/-- **C9**: Whenever at least one row fails the strict date parse but
succeeds the permissive fallback parse (and the parsed column is not
the `_parse_error` tag column itself), the good table returned by
`parse_date_column` is exactly: all strict-parse successes, in their
original relative order, followed by all fallback-recovered rows, in
their original relative order (each recovered row still carrying the
transient strict-failure tag).  Fallback recoveries are therefore
appended after every strict success rather than interleaved at their
input positions. -/
theorem C9_fallback_rows_appended (strict flex : Val → Option Date) (fmtRepr : String)
    (t : Table) (col : String) (good bad : Table)
    (hok : parse_date_column strict flex fmtRepr t col = .ok (good, bad))
    (hne : col ≠ "_parse_error")
    (hfb : (t.rows.filter
      (fun r => (strict (getVal r col)).isNone && (flex (getVal r col)).isSome)) ≠ []) :
    good.rows =
      ((t.rows.filter (fun r => (strict (getVal r col)).isSome)).map
        (fun r => setVal r col (optDateVal (strict (getVal r col))))) ++
      ((t.rows.filter
          (fun r => (strict (getVal r col)).isNone && (flex (getVal r col)).isSome)).map
        (fun r => setVal
          (setVal r "_parse_error"
            (.str ("Failed to parse " ++ col ++ " with format=" ++ fmtRepr)))
          col (optDateVal (flex (getVal r col))))) := by
  unfold parse_date_column at hok
  by_cases hcol : col ∈ t.cols
  · simp only [hcol, not_true_eq_false, if_false] at hok
    by_cases hbad : (t.rows.filter (fun r => (strict (getVal r col)).isNone)).isEmpty
    · exfalso
      rw [List.isEmpty_iff] at hbad
      apply hfb
      have := filter_and_comm (fun r => (strict (getVal r col)).isNone)
        (fun r => (flex (getVal r col)).isSome) t.rows
      rw [← this, hbad]
      rfl
    · rw [if_neg hbad] at hok
      simp only [Except.ok.injEq, Prod.mk.injEq] at hok
      obtain ⟨hg, hb⟩ := hok
      subst hg
      show _ ++ _ = _
      congr 1
      rw [filter_map_comm]
      rw [List.map_map]
      rw [List.filter_congr
        (fun r _ => by
          rw [getVal_setVal_ne r "_parse_error" col _ hne])]
      rw [filter_and_comm]
      apply List.map_congr_left
      intro r hr
      show setVal
        (setVal r "_parse_error"
          (.str ("Failed to parse " ++ col ++ " with format=" ++ fmtRepr)))
        col (optDateVal (flex (getVal (setVal r "_parse_error"
          (.str ("Failed to parse " ++ col ++ " with format=" ++ fmtRepr))) col))) = _
      rw [getVal_setVal_ne r "_parse_error" col _ hne]
  · simp [hcol] at hok

theorem C9_witness :
    c2Good.rows =
      ((c2Tbl.rows.filter (fun r => (strictIsoParse (getVal r "order_date")).isSome)).map
        (fun r => setVal r "order_date" (optDateVal (strictIsoParse (getVal r "order_date"))))) ++
      ((c2Tbl.rows.filter
          (fun r => (strictIsoParse (getVal r "order_date")).isNone &&
            (flexDateParse (getVal r "order_date")).isSome)).map
        (fun r => setVal
          (setVal r "_parse_error"
            (.str ("Failed to parse " ++ "order_date" ++ " with format=" ++ "%Y-%m-%d")))
          "order_date" (optDateVal (flexDateParse (getVal r "order_date"))))) :=
  C9_fallback_rows_appended strictIsoParse flexDateParse "%Y-%m-%d" c2Tbl "order_date"
    c2Good c2Bad (by rfl) (by decide) (by decide)

/-! ### Claim C4 -/

theorem fillVal_of_ne_null (v : Val) (d : String) (h : v ≠ .null) : fillVal v d = v := by
  cases v <;> simp_all [fillVal]

theorem suffixOverlap_nil (oc : List String) (h1 : "product_name" ∉ oc)
    (h2 : "category" ∉ oc) (h3 : "product_price" ∉ oc) : suffixOverlap oc = [] := by
  simp [suffixOverlap, h1, h2, h3]

theorem renameLeftRow_nil (r : Row) : renameLeftRow [] r = r := by
  simp [renameLeftRow]

theorem rightColName_nil (c : String) : rightColName [] c = c := by
  simp [rightColName]

theorem mergedColsOf_nil (oc : List String) (h : suffixOverlap oc = []) :
    mergedColsOf oc = oc ++ ["product_name", "category", "product_price"] := by
  unfold mergedColsOf
  rw [h]
  simp [rightColName]

/-- The sentinel values an unmatched order row receives (on an orders
table that does not already carry the three product columns, so the
merge adds them unsuffixed and the guarded `fillna` applies). -/
theorem enrichRow_unmatched (oc : List String) (products : Table) (r : Row)
    (hc1 : "product_name" ∉ oc) (hc2 : "category" ∉ oc) (hc3 : "product_price" ∉ oc)
    (h : prodMatch products (numOrNull (getVal r "product_id")) = none) :
    getVal (enrichRow oc products r) "product_name" = .str "unknown_product" ∧
    getVal (enrichRow oc products r) "category" = .str "unknown_category" ∧
    getVal (enrichRow oc products r) "product_price" = .null := by
  have hov : suffixOverlap oc = [] := suffixOverlap_nil oc hc1 hc2 hc3
  have hpn : "product_name" ∈ mergedColsOf oc := by
    rw [mergedColsOf_nil oc hov]
    simp
  have hcat : "category" ∈ mergedColsOf oc := by
    rw [mergedColsOf_nil oc hov]
    simp
  unfold enrichRow enrichJoin
  rw [show getVal (coerceIdRow r) "product_id" = numOrNull (getVal r "product_id") from
    getVal_setVal_self r "product_id" _]
  rw [h, hov]
  simp only [renameLeftRow_nil, rightColName_nil]
  unfold enrichFill enrichFillCategory enrichFillName
  rw [if_pos hcat, if_pos hpn]
  refine ⟨?_, ?_, ?_⟩
  · rw [getVal_setVal_ne _ "category" "product_name" _ (by decide),
      getVal_setVal_self,
      getVal_setVal_ne _ "product_price" "product_name" _ (by decide),
      getVal_setVal_ne _ "category" "product_name" _ (by decide),
      getVal_setVal_self]
    rfl
  · rw [getVal_setVal_self,
      getVal_setVal_ne _ "product_name" "category" _ (by decide),
      getVal_setVal_ne _ "product_price" "category" _ (by decide),
      getVal_setVal_self]
    rfl
  · rw [getVal_setVal_ne _ "category" "product_price" _ (by decide),
      getVal_setVal_ne _ "product_name" "product_price" _ (by decide),
      getVal_setVal_self]

/-- The product values a matched order row receives (`product_price`
verbatim; name and category through the column-level `fillna`), on an
orders table that does not already carry the three product columns. -/
theorem enrichRow_matched (oc : List String) (products : Table) (r p : Row)
    (hc1 : "product_name" ∉ oc) (hc2 : "category" ∉ oc) (hc3 : "product_price" ∉ oc)
    (h : prodMatch products (numOrNull (getVal r "product_id")) = some p) :
    getVal (enrichRow oc products r) "product_price" = getVal p "price" ∧
    (getVal p "product_name" ≠ .null →
      getVal (enrichRow oc products r) "product_name" = getVal p "product_name") ∧
    (getVal p "category" ≠ .null →
      getVal (enrichRow oc products r) "category" = getVal p "category") := by
  have hov : suffixOverlap oc = [] := suffixOverlap_nil oc hc1 hc2 hc3
  have hpn : "product_name" ∈ mergedColsOf oc := by
    rw [mergedColsOf_nil oc hov]
    simp
  have hcat : "category" ∈ mergedColsOf oc := by
    rw [mergedColsOf_nil oc hov]
    simp
  unfold enrichRow enrichJoin
  rw [show getVal (coerceIdRow r) "product_id" = numOrNull (getVal r "product_id") from
    getVal_setVal_self r "product_id" _]
  rw [h, hov]
  simp only [renameLeftRow_nil, rightColName_nil]
  unfold enrichFill enrichFillCategory enrichFillName
  rw [if_pos hcat, if_pos hpn]
  refine ⟨?_, ?_, ?_⟩
  · rw [getVal_setVal_ne _ "category" "product_price" _ (by decide),
      getVal_setVal_ne _ "product_name" "product_price" _ (by decide),
      getVal_setVal_self]
  · intro hn
    rw [getVal_setVal_ne _ "category" "product_name" _ (by decide),
      getVal_setVal_self,
      getVal_setVal_ne _ "product_price" "product_name" _ (by decide),
      getVal_setVal_ne _ "category" "product_name" _ (by decide),
      getVal_setVal_self]
    exact fillVal_of_ne_null _ _ hn
  · intro hc
    rw [getVal_setVal_self,
      getVal_setVal_ne _ "product_name" "category" _ (by decide),
      getVal_setVal_ne _ "product_price" "category" _ (by decide),
      getVal_setVal_self]
    exact fillVal_of_ne_null _ _ hc

/-- **C4**: When `enrich_with_products` succeeds on an orders table (a
table not already carrying the join-added `product_name`, `category`
or `product_price` columns — with a collision pandas suffixes them
`_x`/`_y` and the guarded `fillna` is skipped, so the claimed fields
would not exist), every order row is kept (left join, one output row
per input row); a row whose (coerced) `product_id` has no matching
product — NaN keys do join NaN-keyed product rows, as in pandas —
receives the sentinels `product_name = "unknown_product"` and
`category = "unknown_category"` while its `product_price` stays null;
a matched row receives the product's `product_name`, `category`
(whenever the product actually carries them — the column `fillna`
would mask a null) and its `price` as `product_price`, verbatim. -/
theorem C4_enrich_with_products_defaulting (orders products out : Table) (i : Nat)
    (pm : Option Row)
    (hok : enrich_with_products orders products = .ok out)
    (hc1 : "product_name" ∉ orders.cols) (hc2 : "category" ∉ orders.cols)
    (hc3 : "product_price" ∉ orders.cols)
    (hi : i < orders.rows.length)
    (hpm : prodMatch products (numOrNull (getVal (orders.rows.getD i []) "product_id")) = pm) :
    out.rows.length = orders.rows.length ∧
    (pm = none →
      getVal (out.rows.getD i []) "product_name" = Val.str "unknown_product" ∧
      getVal (out.rows.getD i []) "category" = Val.str "unknown_category" ∧
      getVal (out.rows.getD i []) "product_price" = Val.null) ∧
    (pm ≠ none →
      getVal (out.rows.getD i []) "product_price" = getVal (pm.getD []) "price" ∧
      (getVal (pm.getD []) "product_name" ≠ Val.null →
        getVal (out.rows.getD i []) "product_name" = getVal (pm.getD []) "product_name") ∧
      (getVal (pm.getD []) "category" ≠ Val.null →
        getVal (out.rows.getD i []) "category" = getVal (pm.getD []) "category")) := by
  unfold enrich_with_products at hok
  by_cases h1 : "product_id" ∈ orders.cols
  · simp only [h1, not_true_eq_false, if_false] at hok
    by_cases h2 : "product_id" ∉ products.cols ∨ "product_name" ∉ products.cols ∨
        "category" ∉ products.cols ∨ "price" ∉ products.cols
    · rw [if_pos h2] at hok
      exact absurd hok (by simp)
    · rw [if_neg h2] at hok
      by_cases h3 : hasDupKeys
          ((products.rows.map coerceIdRow).map (fun p => getVal p "product_id")) = true
      · rw [if_pos h3] at hok
        exact absurd hok (by simp)
      · rw [if_neg h3] at hok
        simp only [Except.ok.injEq] at hok
        subst hok
        have hrow : (Table.mk (mergedColsOf orders.cols)
            (orders.rows.map (enrichRow orders.cols products))).rows.getD i []
            = enrichRow orders.cols products (orders.rows.getD i []) :=
          getD_map_of_lt (enrichRow orders.cols products) orders.rows i hi [] []
        refine ⟨by simp, ?_, ?_⟩
        · intro hnone
          subst hnone
          rw [hrow]
          exact enrichRow_unmatched orders.cols products _ hc1 hc2 hc3 hpm
        · intro hsome
          match pm, hsome with
          | some p, _ =>
            rw [hrow]
            simp only [Option.getD_some]
            exact enrichRow_matched orders.cols products _ p hc1 hc2 hc3 hpm
  · simp [h1] at hok

theorem C4_witness :
    c4Out.rows.length = c4Orders.rows.length ∧
    ((none : Option Row) = none →
      getVal (c4Out.rows.getD 1 []) "product_name" = Val.str "unknown_product" ∧
      getVal (c4Out.rows.getD 1 []) "category" = Val.str "unknown_category" ∧
      getVal (c4Out.rows.getD 1 []) "product_price" = Val.null) ∧
    ((none : Option Row) ≠ none →
      getVal (c4Out.rows.getD 1 []) "product_price"
        = getVal ((none : Option Row).getD []) "price" ∧
      (getVal ((none : Option Row).getD []) "product_name" ≠ Val.null →
        getVal (c4Out.rows.getD 1 []) "product_name"
          = getVal ((none : Option Row).getD []) "product_name") ∧
      (getVal ((none : Option Row).getD []) "category" ≠ Val.null →
        getVal (c4Out.rows.getD 1 []) "category"
          = getVal ((none : Option Row).getD []) "category")) :=
  C4_enrich_with_products_defaulting c4Orders c4Products c4Out 1 none
    (by rfl) (by decide) (by decide) (by decide) (by decide) (by decide)

/-! ### Claim C8 -/

/-- **C8**: On a table that already contains the `order_total` and
`order_date_iso` columns, `compute_daily_category_revenue` and
`top_n_products_by_revenue` aggregate directly over those existing
column values: the result is exactly the group-and-sum of the input as
given — including its `KeyError` failure when another grouped or
aggregated column is absent — so the `add_order_total` /
`add_order_date_iso` derivations are not re-run and the input table (a
pure value here, as the source works on a `df.copy()`) is left with
all its columns intact. -/
theorem C8_aggregations_use_existing_columns (flex : Val → Option Date) (t : Table) (n : Nat)
    (hTot : "order_total" ∈ t.cols) (hIso : "order_date_iso" ∈ t.cols) :
    compute_daily_category_revenue flex t = dailyAgg t ∧
    top_n_products_by_revenue t n = topAgg t n := by
  constructor
  · simp [compute_daily_category_revenue, hTot, hIso]
  · simp [top_n_products_by_revenue, hTot]

theorem C8_witness :
    compute_daily_category_revenue flexDateParse c8Tbl = dailyAgg c8Tbl ∧
    top_n_products_by_revenue c8Tbl 10 = topAgg c8Tbl 10 :=
  C8_aggregations_use_existing_columns flexDateParse c8Tbl 10 (by decide) (by decide)

/-! ### Claim C5 -/

/-- A successful parse splits the input lengths. -/
theorem parse_ok_length (strict flex : Val → Option Date) (fmtRepr : String)
    (t : Table) (col : String) (good bad : Table)
    (hok : parse_date_column strict flex fmtRepr t col = .ok (good, bad)) :
    good.rows.length + bad.rows.length = t.rows.length := by
  unfold parse_date_column at hok
  by_cases hcol : col ∈ t.cols
  · simp only [hcol, not_true_eq_false, if_false] at hok
    by_cases hbad : (t.rows.filter (fun r => (strict (getVal r col)).isNone)).isEmpty
    · rw [if_pos hbad] at hok
      simp only [Except.ok.injEq, Prod.mk.injEq] at hok
      obtain ⟨hg, hb⟩ := hok
      subst hg; subst hb
      rw [List.isEmpty_iff] at hbad
      have h1 := length_filter_opt (fun r => strict (getVal r col)) t.rows
      rw [hbad] at h1
      simpa using h1
    · rw [if_neg hbad] at hok
      simp only [Except.ok.injEq, Prod.mk.injEq] at hok
      obtain ⟨hg, hb⟩ := hok
      subst hg; subst hb
      simp only [List.length_append, List.length_map]
      rw [Nat.add_assoc]
      have h2 := length_filter_opt
        (fun r => flex (getVal r col))
        ((t.rows.filter (fun r => (strict (getVal r col)).isNone)).map
          (fun r => setVal r "_parse_error"
            (.str ("Failed to parse " ++ col ++ " with format=" ++ fmtRepr))))
      rw [List.length_map] at h2
      rw [h2]
      exact length_filter_opt (fun r => strict (getVal r col)) t.rows
  · simp [hcol] at hok

/-- Validation splits the input lengths. -/
theorem validate_dataframe_lengths (check : Row → Option String) (t : Table) :
    (validate_dataframe check t).1.rows.length + (validate_dataframe check t).2.rows.length
      = t.rows.length := by
  show (t.rows.filter (fun r => (check r).isNone)).length +
    ((t.rows.filter (fun r => (check r).isSome)).map
      (fun r => setVal r "_error" (.str ((check r).getD "")))).length = t.rows.length
  rw [List.length_map, Nat.add_comm]
  exact length_filter_opt check t.rows

theorem isEmpty_false_of_ne {α : Type} (l : List α) (h : l ≠ []) : l.isEmpty = false := by
  cases l with
  | nil => exact absurd rfl h
  | cons x xs => rfl

theorem combineBadRows_none (pb vb : Table) (h1 : pb.rows = []) (h2 : vb.rows = []) :
    combineBadRows pb vb = none := by
  unfold combineBadRows
  simp [h1, h2]

theorem combineBadRows_right (pb vb : Table) (h1 : pb.rows = []) (h2 : vb.rows ≠ []) :
    combineBadRows pb vb = some vb := by
  unfold combineBadRows
  simp [h1, isEmpty_false_of_ne _ h2]

theorem combineBadRows_left (pb vb : Table) (h1 : pb.rows ≠ []) (h2 : vb.rows = []) :
    combineBadRows pb vb = some pb := by
  unfold combineBadRows
  simp [isEmpty_false_of_ne _ h1, h2]

theorem combineBadRows_both (pb vb : Table) (h1 : pb.rows ≠ []) (h2 : vb.rows ≠ []) :
    combineBadRows pb vb = some (concatTables pb vb) := by
  unfold combineBadRows
  simp [isEmpty_false_of_ne _ h1, isEmpty_false_of_ne _ h2]

theorem badRowsWriteOps_some (bt : Table) (dateStr outBase : String) (h : bt.rows ≠ []) :
    badRowsWriteOps (some bt) dateStr outBase =
      [.mkdir (outBase ++ "/bad_rows"),
       .csvFile (outBase ++ "/bad_rows" ++ "/" ++ ("orders-" ++ dateStr ++ "-bad") ++ ".csv") bt] := by
  unfold badRowsWriteOps write_bad_rows_csv
  simp [isEmpty_false_of_ne _ h]

/-- **C5**: If a date's order table yields zero valid rows (every row
fails the date parse or the schema validation), `run_for_date` returns
— without raising — a summary with `rows = 0`, `revenue = 0.0`,
`parquet_path` absent and `bad_rows` equal to the total input row
count; outside dry-run its only effects are the bad-rows-table write,
which does fire. -/
theorem C5_zero_valid_rows_summary (strict flex : Val → Option Date)
    (check : Row → Option String) (ordersRaw products : Table)
    (dateStr outBase : String) (dryRun : Bool) (good bad : Table)
    (hparse : parse_date_column strict flex "%Y-%m-%d" ordersRaw "order_date" = .ok (good, bad))
    (hzero : (validate_dataframe check good).1.rows = [])
    (hne : ordersRaw.rows ≠ []) :
    run_for_date strict flex check ordersRaw products dateStr outBase dryRun =
      .ok (⟨dateStr, 0, 0, ordersRaw.rows.length, none⟩,
        if dryRun then []
        else badRowsWriteOps (combineBadRows bad (validate_dataframe check good).2)
          dateStr outBase) ∧
    (dryRun = false →
      csvWrites (badRowsWriteOps (combineBadRows bad (validate_dataframe check good).2)
        dateStr outBase) ≠ []) := by
  have hlen1 : good.rows.length + bad.rows.length = ordersRaw.rows.length :=
    parse_ok_length strict flex "%Y-%m-%d" ordersRaw "order_date" good bad hparse
  have hlen2 : (validate_dataframe check good).2.rows.length = good.rows.length := by
    have h := validate_dataframe_lengths check good
    rw [hzero] at h
    simpa using h
  by_cases hb1 : bad.rows = []
  · by_cases hb2 : (validate_dataframe check good).2.rows = []
    · exfalso
      have hg : good.rows.length = 0 := by
        rw [← hlen2, hb2]
        rfl
      have hlen0 : ordersRaw.rows.length = 0 := by
        rw [← hlen1, hg, hb1]
        rfl
      exact hne (List.length_eq_zero.mp hlen0)
    · have hcomb := combineBadRows_right bad _ hb1 hb2
      have hvb : (validate_dataframe check good).2.rows.length = ordersRaw.rows.length := by
        rw [hlen2, ← hlen1, hb1]
        simp
      constructor
      · unfold run_for_date
        rw [hparse]
        simp only [hzero, List.isEmpty_nil, if_true, hcomb, hvb]
      · intro _
        rw [hcomb, badRowsWriteOps_some _ _ _ hb2]
        simp [csvWrites]
  · by_cases hb2 : (validate_dataframe check good).2.rows = []
    · have hcomb := combineBadRows_left bad _ hb1 hb2
      have hvb : bad.rows.length = ordersRaw.rows.length := by
        have hg : good.rows.length = 0 := by
          rw [← hlen2, hb2]
          rfl
        rw [← hlen1, hg]
        simp
      constructor
      · unfold run_for_date
        rw [hparse]
        simp only [hzero, List.isEmpty_nil, if_true, hcomb, hvb]
      · intro _
        rw [hcomb, badRowsWriteOps_some _ _ _ hb1]
        simp [csvWrites]
    · have hcomb := combineBadRows_both bad _ hb1 hb2
      have hcc : (concatTables bad (validate_dataframe check good).2).rows ≠ [] := by
        show bad.rows ++ (validate_dataframe check good).2.rows ≠ []
        intro hcon
        exact hb1 (List.append_eq_nil.mp hcon).1
      have hvb : (concatTables bad (validate_dataframe check good).2).rows.length
          = ordersRaw.rows.length := by
        show (bad.rows ++ (validate_dataframe check good).2.rows).length = _
        rw [List.length_append, hlen2, Nat.add_comm]
        exact hlen1
      constructor
      · unfold run_for_date
        rw [hparse]
        simp only [hzero, List.isEmpty_nil, if_true, hcomb, hvb]
      · intro _
        rw [hcomb, badRowsWriteOps_some _ _ _ hcc]
        simp [csvWrites]

theorem C5_witness :
    run_for_date strictIsoParse flexDateParse rejectAllCheck c2Tbl c4Products
        "20251025" "output" false =
      .ok (⟨"20251025", 0, 0, c2Tbl.rows.length, none⟩,
        if false then []
        else badRowsWriteOps
          (combineBadRows c2Bad (validate_dataframe rejectAllCheck c2Good).2)
          "20251025" "output") ∧
    (false = false →
      csvWrites (badRowsWriteOps
        (combineBadRows c2Bad (validate_dataframe rejectAllCheck c2Good).2)
        "20251025" "output") ≠ []) :=
  C5_zero_valid_rows_summary strictIsoParse flexDateParse rejectAllCheck c2Tbl c4Products
    "20251025" "output" false c2Good c2Bad (by rfl) (by decide) (by decide)

/-! ### Claim C3 -/

/-- A successful `add_order_total` maps the normalized rows. -/
theorem add_order_total_ok_rows (t out : Table) (h : add_order_total t = .ok out) :
    out.rows = (normalizeQtyPrice t).rows.map orderTotalRow := by
  unfold add_order_total at h
  by_cases h1 : "qty" ∈ (normalizeQtyPrice t).cols
  · simp only [h1, not_true_eq_false, if_false] at h
    by_cases h2 : "unit_price" ∈ (normalizeQtyPrice t).cols
    · simp only [h2, not_true_eq_false, if_false] at h
      simp only [Except.ok.injEq] at h
      subst h
      rfl
    · simp [h2] at h
  · simp [h1] at h

/-- A successful `enrich_with_products` maps the order rows. -/
theorem enrich_with_products_ok_rows (orders products out : Table)
    (h : enrich_with_products orders products = .ok out) :
    out.rows = orders.rows.map (enrichRow orders.cols products) := by
  unfold enrich_with_products at h
  by_cases h1 : "product_id" ∈ orders.cols
  · simp only [h1, not_true_eq_false, if_false] at h
    by_cases h2 : "product_id" ∉ products.cols ∨ "product_name" ∉ products.cols ∨
        "category" ∉ products.cols ∨ "price" ∉ products.cols
    · rw [if_pos h2] at h
      exact absurd h (by simp)
    · rw [if_neg h2] at h
      by_cases h3 : hasDupKeys
          ((products.rows.map coerceIdRow).map (fun p => getVal p "product_id")) = true
      · rw [if_pos h3] at h
        exact absurd h (by simp)
      · rw [if_neg h3] at h
        simp only [Except.ok.injEq] at h
        subst h
        rfl
  · simp [h1] at h

/-- A successful `add_order_date_iso` maps the rows. -/
theorem add_order_date_iso_ok_rows (flex : Val → Option Date) (t : Table)
    (dateCol outCol : String) (out : Table)
    (h : add_order_date_iso flex t dateCol outCol = .ok out) :
    out.rows = t.rows.map (isoRow flex dateCol outCol) := by
  unfold add_order_date_iso at h
  by_cases h1 : dateCol ∈ t.cols
  · simp only [h1, not_true_eq_false, if_false] at h
    simp only [Except.ok.injEq] at h
    subst h
    rfl
  · simp [h1] at h

/-- **C3**: For every date string and identical input data,
`run_for_date` with `dry_run=True` produces the same `rows` and
`revenue` in its returned summary as with `dry_run=False` (and fails
with the same error whenever the non-dry run fails), and the dry run
performs no filesystem effect whatsoever — in particular it creates no
file under the output root. -/
theorem C3_dry_run_purity (strict flex : Val → Option Date)
    (check : Row → Option String) (ordersRaw products : Table) (dateStr outBase : String) :
    (run_for_date strict flex check ordersRaw products dateStr outBase true).map
        (fun p => (p.1.rows, p.1.revenue)) =
      (run_for_date strict flex check ordersRaw products dateStr outBase false).map
        (fun p => (p.1.rows, p.1.revenue)) ∧
    (run_for_date strict flex check ordersRaw products dateStr outBase true).map
        (fun p => p.2) =
      (run_for_date strict flex check ordersRaw products dateStr outBase true).map
        (fun _ => ([] : List WriteOp)) := by
  unfold run_for_date
  cases hp : parse_date_column strict flex "%Y-%m-%d" ordersRaw "order_date" with
  | error e => simp [Except.map]
  | ok pr =>
    obtain ⟨pg, pb⟩ := pr
    by_cases hv : (validate_dataframe check pg).1.rows.isEmpty
    · simp [hv, Except.map]
    · simp only [hv, Bool.false_eq_true, if_false]
      cases ht : add_order_total (validate_dataframe check pg).1 with
      | error e => simp [ht, Except.map]
      | ok e1 =>
        cases he : enrich_with_products e1 products with
        | error e => simp [ht, he, Except.map]
        | ok e2 =>
          cases hi : add_order_date_iso flex e2 "order_date" "order_date_iso" with
          | error e => simp [ht, he, hi, Except.map]
          | ok e3 =>
            have hlen : e3.rows.length = (validate_dataframe check pg).1.rows.length := by
              rw [add_order_date_iso_ok_rows flex e2 _ _ e3 hi, List.length_map,
                enrich_with_products_ok_rows e1 products e2 he, List.length_map,
                add_order_total_ok_rows _ e1 ht, List.length_map,
                normalizeQtyPrice_rows_length]
            cases hr : e3.rows with
            | nil =>
              exfalso
              rw [hr] at hlen
              have : (validate_dataframe check pg).1.rows = [] :=
                List.length_eq_zero.mp hlen.symm
              rw [this] at hv
              exact hv rfl
            | cons r rest => simp [ht, he, hi, hr, Except.map]

/-! ### Claim C10 -/

theorem getVal_renameRowFn (pred : String → Bool) (tgt : String) (r : Row) (c : String)
    (h1 : pred c = false) (h2 : tgt ≠ c) :
    getVal (renameRowFn pred tgt r) c = getVal r c := by
  induction r with
  | nil => rfl
  | cons kv rest ih =>
    obtain ⟨k, w⟩ := kv
    show getVal ((if pred k = true then tgt else k, w) :: renameRowFn pred tgt rest) c = _
    by_cases hk : pred k = true
    · rw [if_pos hk]
      show (if tgt = c then w else getVal (renameRowFn pred tgt rest) c) = _
      rw [if_neg h2, ih]
      have hkc : k ≠ c := by
        intro hEq
        rw [hEq, h1] at hk
        exact Bool.noConfusion hk
      show getVal rest c = if k = c then w else getVal rest c
      rw [if_neg hkc]
    · rw [if_neg hk]
      show (if k = c then w else getVal (renameRowFn pred tgt rest) c) = _
      by_cases hkc : k = c
      · rw [if_pos hkc]
        show _ = if k = c then w else getVal rest c
        rw [if_pos hkc]
      · rw [if_neg hkc, ih]
        show _ = if k = c then w else getVal rest c
        rw [if_neg hkc]

/-- The rows of the normalization prologue are a pointwise image that
preserves every cell outside the renamed alias columns. -/
theorem normalizeQtyPrice_fn (t : Table) :
    ∃ f : Row → Row, (normalizeQtyPrice t).rows = t.rows.map f ∧
      ∀ r c, qtyAlias c = false → priceAlias c = false →
        "qty" ≠ c → "unit_price" ≠ c → getVal (f r) c = getVal r c := by
  unfold normalizeQtyPrice
  by_cases h1 : "qty" ∈ t.cols
  · rw [if_pos h1]
    by_cases h2 : "unit_price" ∈ t.cols
    · rw [if_pos h2]
      exact ⟨fun r => r, (List.map_id t.rows).symm, fun r c _ _ _ _ => rfl⟩
    · rw [if_neg h2]
      exact ⟨renameRowFn priceAlias "unit_price", rfl,
        fun r c _ hp _ hu => getVal_renameRowFn priceAlias "unit_price" r c hp hu⟩
  · rw [if_neg h1]
    by_cases h2 : "unit_price" ∈ (renameTable qtyAlias "qty" t).cols
    · rw [if_pos h2]
      exact ⟨renameRowFn qtyAlias "qty", rfl,
        fun r c hq _ hqc _ => getVal_renameRowFn qtyAlias "qty" r c hq hqc⟩
    · rw [if_neg h2]
      refine ⟨fun r => renameRowFn priceAlias "unit_price" (renameRowFn qtyAlias "qty" r),
        ?_, ?_⟩
      · show (List.map (renameRowFn qtyAlias "qty") t.rows).map
          (renameRowFn priceAlias "unit_price") = _
        rw [List.map_map]
        rfl
      · intro r c hq hp hqc hu
        rw [getVal_renameRowFn priceAlias "unit_price" _ c hp hu,
          getVal_renameRowFn qtyAlias "qty" r c hq hqc]

theorem orderTotalRow_getVal_ne (r : Row) (c : String)
    (h1 : c ≠ "qty") (h2 : c ≠ "unit_price") (h3 : c ≠ "order_total") :
    getVal (orderTotalRow r) c = getVal r c := by
  unfold orderTotalRow
  rw [getVal_setVal_ne _ _ _ _ h3, getVal_setVal_ne _ _ _ _ h2, getVal_setVal_ne _ _ _ _ h1]

theorem suffixOverlap_mem (oc : List String) (k : String) (hk : k ∈ suffixOverlap oc) :
    k = "product_name" ∨ k = "category" ∨ k = "product_price" := by
  unfold suffixOverlap at hk
  have h := (List.mem_filter.mp hk).1
  simpa using h

theorem getVal_renameLeftRow_order_date (overlap : List String) (r : Row)
    (hsub : ∀ k ∈ overlap, k = "product_name" ∨ k = "category" ∨ k = "product_price") :
    getVal (renameLeftRow overlap r) "order_date" = getVal r "order_date" := by
  induction r with
  | nil => rfl
  | cons kv rest ih =>
    obtain ⟨k, w⟩ := kv
    show getVal ((if k ∈ overlap then k ++ "_x" else k, w) :: renameLeftRow overlap rest)
      "order_date" = _
    by_cases hk : k ∈ overlap
    · rw [if_pos hk]
      have hkx : k ++ "_x" ≠ "order_date" := by
        rcases hsub k hk with h | h | h <;> rw [h] <;> decide
      have hkc : k ≠ "order_date" := by
        rcases hsub k hk with h | h | h <;> rw [h] <;> decide
      show (if k ++ "_x" = "order_date" then w
        else getVal (renameLeftRow overlap rest) "order_date") = _
      rw [if_neg hkx, ih]
      show _ = if k = "order_date" then w else getVal rest "order_date"
      rw [if_neg hkc]
    · rw [if_neg hk]
      show (if k = "order_date" then w
        else getVal (renameLeftRow overlap rest) "order_date") = _
      by_cases hkc : k = "order_date"
      · rw [if_pos hkc]
        show _ = if k = "order_date" then w else getVal rest "order_date"
        rw [if_pos hkc]
      · rw [if_neg hkc, ih]
        show _ = if k = "order_date" then w else getVal rest "order_date"
        rw [if_neg hkc]

theorem rightColName_cases (overlap : List String) (c : String) :
    rightColName overlap c = c ∨ rightColName overlap c = c ++ "_y" := by
  unfold rightColName
  by_cases h : c ∈ overlap
  · rw [if_pos h]
    right
    rfl
  · rw [if_neg h]
    left
    rfl

theorem rightColName_ne_order_date (overlap : List String) (c : String)
    (h1 : c ≠ "order_date") (h2 : c ++ "_y" ≠ "order_date") :
    "order_date" ≠ rightColName overlap c := by
  rcases rightColName_cases overlap c with h | h <;> rw [h]
  · exact Ne.symm h1
  · exact Ne.symm h2

theorem enrichFillName_getVal_ne (mc : List String) (r2 : Row) (c : String)
    (h : c ≠ "product_name") : getVal (enrichFillName mc r2) c = getVal r2 c := by
  unfold enrichFillName
  split
  · exact getVal_setVal_ne _ _ _ _ h
  · rfl

theorem enrichFillCategory_getVal_ne (mc : List String) (r3 : Row) (c : String)
    (h : c ≠ "category") : getVal (enrichFillCategory mc r3) c = getVal r3 c := by
  unfold enrichFillCategory
  split
  · exact getVal_setVal_ne _ _ _ _ h
  · rfl

/-- The enrichment never touches the `order_date` cell, whatever the
orders column list: the merge writes only the join key, the suffixed
left names and the (possibly suffixed) three product columns. -/
theorem enrichRow_getVal_order_date (oc : List String) (products : Table) (r : Row) :
    getVal (enrichRow oc products r) "order_date" = getVal r "order_date" := by
  have hjoin : getVal (enrichJoin oc products (coerceIdRow r)) "order_date"
      = getVal r "order_date" := by
    have hrl : getVal (renameLeftRow (suffixOverlap oc) (coerceIdRow r)) "order_date"
        = getVal (coerceIdRow r) "order_date" :=
      getVal_renameLeftRow_order_date _ _ (fun k hk => suffixOverlap_mem oc k hk)
    have hco : getVal (coerceIdRow r) "order_date" = getVal r "order_date" :=
      getVal_setVal_ne _ _ _ _ (by decide)
    unfold enrichJoin
    cases prodMatch products (getVal (coerceIdRow r) "product_id") with
    | some p =>
      rw [getVal_setVal_ne _ _ _ _
          (rightColName_ne_order_date _ "product_price" (by decide) (by decide)),
        getVal_setVal_ne _ _ _ _
          (rightColName_ne_order_date _ "category" (by decide) (by decide)),
        getVal_setVal_ne _ _ _ _
          (rightColName_ne_order_date _ "product_name" (by decide) (by decide)),
        hrl, hco]
    | none =>
      rw [getVal_setVal_ne _ _ _ _
          (rightColName_ne_order_date _ "product_price" (by decide) (by decide)),
        getVal_setVal_ne _ _ _ _
          (rightColName_ne_order_date _ "category" (by decide) (by decide)),
        getVal_setVal_ne _ _ _ _
          (rightColName_ne_order_date _ "product_name" (by decide) (by decide)),
        hrl, hco]
  unfold enrichRow enrichFill
  rw [enrichFillCategory_getVal_ne _ _ _ (by decide),
    enrichFillName_getVal_ne _ _ _ (by decide)]
  exact hjoin

/-- A row whose date cell is already parsed keeps it, and its ISO
image lands in the output column. -/
theorem isoRow_getVal_out (flex : Val → Option Date) (dateCol outCol : String)
    (r : Row) (d : Date) (hd : getVal r dateCol = Val.date d) :
    getVal (isoRow flex dateCol outCol r) outCol = Val.str (isoFormat d) := by
  unfold isoRow
  rw [hd]
  exact getVal_setVal_self _ _ _

/-- Every good row of a successful parse carries a parsed date in the
designated column. -/
theorem parse_ok_good_dates (strict flex : Val → Option Date) (fmtRepr : String)
    (t : Table) (col : String) (good bad : Table)
    (hok : parse_date_column strict flex fmtRepr t col = .ok (good, bad)) :
    ∀ r ∈ good.rows, ∃ d, getVal r col = Val.date d := by
  unfold parse_date_column at hok
  by_cases hcol : col ∈ t.cols
  · simp only [hcol, not_true_eq_false, if_false] at hok
    by_cases hbad : (t.rows.filter (fun r => (strict (getVal r col)).isNone)).isEmpty
    · rw [if_pos hbad] at hok
      simp only [Except.ok.injEq, Prod.mk.injEq] at hok
      obtain ⟨hg, _⟩ := hok
      subst hg
      intro r hr
      simp only [List.mem_map, List.mem_filter] at hr
      obtain ⟨r0, ⟨_, hsome⟩, hrw⟩ := hr
      obtain ⟨d, hd⟩ := Option.isSome_iff_exists.mp hsome
      refine ⟨d, ?_⟩
      rw [← hrw, hd]
      exact getVal_setVal_self _ _ _
    · rw [if_neg hbad] at hok
      simp only [Except.ok.injEq, Prod.mk.injEq] at hok
      obtain ⟨hg, _⟩ := hok
      subst hg
      intro r hr
      simp only [List.mem_append, List.mem_map, List.mem_filter] at hr
      rcases hr with ⟨r0, ⟨_, hsome⟩, hrw⟩ | ⟨r0, ⟨_, hsome⟩, hrw⟩
      · obtain ⟨d, hd⟩ := Option.isSome_iff_exists.mp hsome
        refine ⟨d, ?_⟩
        rw [← hrw, hd]
        exact getVal_setVal_self _ _ _
      · obtain ⟨d, hd⟩ := Option.isSome_iff_exists.mp hsome
        refine ⟨d, ?_⟩
        rw [← hrw, hd]
        exact getVal_setVal_self _ _ _
  · simp [hcol] at hok

theorem dash_mem_isoFormat (d : Date) : '-' ∈ (isoFormat d).data := by
  unfold isoFormat
  simp [String.data_append]

theorem isoFormat_ne_of_no_dash (d : Date) (s : String) (h : '-' ∉ s.data) :
    isoFormat d ≠ s :=
  fun he => h (he ▸ dash_mem_isoFormat d)

/-- The bad-rows write never emits a summary JSON. -/
theorem jsonWrites_badRowsWriteOps (bc : Option Table) (dateStr outBase : String) :
    jsonWrites (badRowsWriteOps bc dateStr outBase) = [] := by
  cases bc with
  | none => rfl
  | some bt =>
    unfold badRowsWriteOps write_bad_rows_csv
    by_cases h : bt.rows.isEmpty <;> simp [h, jsonWrites]

/-- **C10**: For every successful non-dry run with at least one valid
order row (`parquet_path` present), the summary returned to the caller
carries the original input date string, while the persisted summary
JSON — exactly one is written — carries as its `date` field the ISO
partition value `YYYY-MM-DD` of the run (taken, per the code, from the
first enriched row), which also names the file
`summary_<iso>.json` and the parquet partition directory; since the
input date string contains no dash (the `YYYYMMDD` form), the two date
representations differ for the same run. -/
theorem C10_persisted_vs_returned_date (strict flex : Val → Option Date)
    (check : Row → Option String) (ordersRaw products : Table)
    (dateStr outBase : String) (s : RunSummary) (ops : List WriteOp)
    (hok : run_for_date strict flex check ordersRaw products dateStr outBase false
      = .ok (s, ops))
    (hpq : s.parquetPath ≠ none)
    (hdash : '-' ∉ dateStr.data) :
    s.date = dateStr ∧
    ∃ d : Date,
      jsonWrites ops =
        [(outBase ++ "/summaries" ++ "/" ++ ("summary_" ++ isoFormat d ++ ".json"),
          ⟨some (isoFormat d), s.rows, s.revenue⟩)] ∧
      s.parquetPath =
        some (outBase ++ "/processed" ++ "/date=" ++ isoFormat d ++ "/data.parquet") ∧
      isoFormat d ≠ dateStr := by
  unfold run_for_date at hok
  cases hp : parse_date_column strict flex "%Y-%m-%d" ordersRaw "order_date" with
  | error e =>
    rw [hp] at hok
    exact absurd hok (by simp)
  | ok pr =>
    obtain ⟨pg, pb⟩ := pr
    rw [hp] at hok
    by_cases hv : (validate_dataframe check pg).1.rows.isEmpty
    · simp only [hv, if_true] at hok
      simp only [Except.ok.injEq, Prod.mk.injEq] at hok
      exfalso
      apply hpq
      rw [← hok.1]
    · simp only [hv, Bool.false_eq_true, if_false] at hok
      cases ht : add_order_total (validate_dataframe check pg).1 with
      | error e =>
        rw [ht] at hok
        exact absurd hok (by simp)
      | ok e1 =>
        simp only [ht] at hok
        cases he : enrich_with_products e1 products with
        | error e =>
          simp only [he] at hok
          exact absurd hok (by simp)
        | ok e2 =>
          simp only [he] at hok
          cases hi : add_order_date_iso flex e2 "order_date" "order_date_iso" with
          | error e =>
            simp only [hi] at hok
            exact absurd hok (by simp)
          | ok e3 =>
            simp only [hi] at hok
            cases hval : (validate_dataframe check pg).1.rows with
            | nil =>
              exfalso
              rw [hval] at hv
              exact hv rfl
            | cons v0 vrest =>
              obtain ⟨f, hfrows, hfpres⟩ := normalizeQtyPrice_fn (validate_dataframe check pg).1
              have he1 : e1.rows = orderTotalRow (f v0) ::
                  (vrest.map (fun r => orderTotalRow (f r))) := by
                rw [add_order_total_ok_rows _ e1 ht, hfrows, List.map_map, hval]
                rfl
              have he2 : e2.rows = enrichRow e1.cols products (orderTotalRow (f v0)) ::
                  (vrest.map (fun r => enrichRow e1.cols products (orderTotalRow (f r)))) := by
                rw [enrich_with_products_ok_rows e1 products e2 he, he1]
                simp
              have he3 : e3.rows = isoRow flex "order_date" "order_date_iso"
                    (enrichRow e1.cols products (orderTotalRow (f v0))) ::
                  (vrest.map (fun r => isoRow flex "order_date" "order_date_iso"
                    (enrichRow e1.cols products (orderTotalRow (f r))))) := by
                rw [add_order_date_iso_ok_rows flex e2 _ _ e3 hi, he2]
                simp
              simp only [he3] at hok
              have hv0pg : v0 ∈ pg.rows := by
                have hmem : v0 ∈ (validate_dataframe check pg).1.rows := by
                  rw [hval]
                  exact List.mem_cons_self v0 vrest
                have : (validate_dataframe check pg).1.rows =
                    pg.rows.filter (fun r => (check r).isNone) := rfl
                rw [this] at hmem
                exact List.mem_of_mem_filter hmem
              obtain ⟨d, hd⟩ := parse_ok_good_dates strict flex "%Y-%m-%d" ordersRaw
                "order_date" pg pb hp v0 hv0pg
              have hdpres : getVal (enrichRow e1.cols products (orderTotalRow (f v0)))
                  "order_date" = Val.date d := by
                rw [enrichRow_getVal_order_date e1.cols products _,
                  orderTotalRow_getVal_ne _ "order_date" (by decide) (by decide) (by decide),
                  hfpres (v0) "order_date" (by decide) (by decide) (by decide) (by decide)]
                exact hd
              have hiso : getVal (isoRow flex "order_date" "order_date_iso"
                  (enrichRow e1.cols products (orderTotalRow (f v0)))) "order_date_iso"
                  = Val.str (isoFormat d) :=
                isoRow_getVal_out flex "order_date" "order_date_iso" _ d hdpres
              rw [hiso] at hok
              simp only [Except.ok.injEq, Prod.mk.injEq] at hok
              obtain ⟨hs, hops⟩ := hok
              refine ⟨by rw [← hs], d, ?_, ?_, ?_⟩
              · rw [← hops, ← hs]
                have hb := jsonWrites_badRowsWriteOps
                  (combineBadRows pb (validate_dataframe check pg).2) dateStr outBase
                simp only [jsonWrites] at hb ⊢
                rw [List.filterMap_append, List.filterMap_append, hb]
                simp [write_parquet_partition, write_summary_json, valToStr]
              · rw [← hs]
                rfl
              · exact isoFormat_ne_of_no_dash d dateStr hdash

theorem C10_witness :
    c10Res.1.date = "20251025" ∧
    ∃ d : Date,
      jsonWrites c10Res.2 =
        [("output" ++ "/summaries" ++ "/" ++ ("summary_" ++ isoFormat d ++ ".json"),
          ⟨some (isoFormat d), c10Res.1.rows, c10Res.1.revenue⟩)] ∧
      c10Res.1.parquetPath =
        some ("output" ++ "/processed" ++ "/date=" ++ isoFormat d ++ "/data.parquet") ∧
      isoFormat d ≠ "20251025" :=
  C10_persisted_vs_returned_date strictIsoParse flexDateParse sampleOrderCheck c2Tbl
    c4Products "20251025" "output" c10Res.1 c10Res.2 (by rfl) (by decide) (by decide)

end QuickShop
